import Mathlib

/-!
Verification of the GreedyBear feed engine (`api/views/utils.py`):
parameter normalization, legacy-age translation, query building and
multi-format response rendering, shallowly embedded in Lean.

Modelling conventions:
* Python dicts of query parameters become association lists
  `List (String × String)`; `dict.get(k, d)` becomes lookup with default.
* Django querysets become Lean lists; lazy evaluation is made explicit.
* Dates become `Nat` day counts; `strftime("%Y-%m-%d")` is abstracted to a
  rendering function since no property inspects the formatted text.
* Fallible code (exceptions) becomes `Except String`.
* The statistics write, an external side effect that may fail, is modelled
  by a boolean `statsOk` environment flag.
-/

namespace GreedyBear

/-- A registered general honeypot: name (case-insensitive unique) and an
active flag.  `str(hp)` in the source yields the name. -/
structure Honeypot where
  name : String
  active : Bool
deriving Repr, DecidableEq

/-- An IOC record from the record store (`greedybear.models.IOC`).
Dates (`first_seen`, `last_seen`) are day counts. -/
structure IOC where
  name : String
  log4j : Bool
  cowrie : Bool
  scanner : Bool
  payload_request : Bool
  first_seen : Nat
  last_seen : Nat
  number_of_days_seen : Nat
  attack_count : Nat
  interaction_count : Nat
  ip_reputation : String
  asn : Option Int
  destination_ports : List Nat
  login_attempts : Nat
  days_seen : List Nat
  general_honeypot : List Honeypot
deriving Repr, DecidableEq

/-- The feed request configuration object (`FeedRequestParams` attributes,
lines 61-71 of `api/views/utils.py`).  All values are kept as the strings
the source stores. -/
structure FeedRequestParams where
  feed_type : String
  attack_type : String
  max_age : String
  min_days_seen : String
  include_reputation : List String
  exclude_reputation : List String
  feed_size : String
  ordering : String
  verbose : String
  paginate : String
  format : String
deriving Repr, DecidableEq

/-- `query_params.get(key, default)` on a Python dict, embedded over an
association list. -/
def dictGet (qp : List (String × String)) (key default : String) : String :=
  (qp.lookup key).getD default

/-!
Python string primitives, embedded over the character data so that every
definition evaluates inside the kernel.  All inputs in this program are
ASCII. -/

/-- `str.lower()`. -/
def pyLower (s : String) : String := String.mk (s.data.map Char.toLower)

/-- `.replace("value", "name")` over characters: left-to-right,
non-overlapping, exactly the instance the source applies (line 68). -/
def replaceVN : List Char → List Char
  | [] => []
  | 'v' :: 'a' :: 'l' :: 'u' :: 'e' :: rest => 'n' :: 'a' :: 'm' :: 'e' :: replaceVN rest
  | c :: rest => c :: replaceVN rest

/-- `str.replace("value", "name")`. -/
def pyReplaceValueName (s : String) : String := String.mk (replaceVN s.data)

/-- `str.split(";")` over characters: `[]` yields one empty group, every
`;` starts a new group. -/
def splitSemi : List Char → List (List Char)
  | [] => [[]]
  | c :: rest =>
      match splitSemi rest, decide (c = ';') with
      | groups, true => [] :: groups
      | [], false => [[c]]
      | g :: gs, false => (c :: g) :: gs

/-- `str.split(";")`: in particular `"".split(";") == [""]`. -/
def pySplitSemicolon (s : String) : List String :=
  (splitSemi s.data).map String.mk

/-- `int(str)` on the nonnegative decimal strings admitted by the request
serializer. -/
def pyToNat (s : String) : Option Nat :=
  if s.data ≠ [] ∧ s.data.all (fun c => c.isDigit) then
    some (s.data.foldl (fun n c => 10 * n + (c.toNat - 48)) 0)
  else none

/-- `str.startswith("-")`. -/
def startsWithDash (s : String) : Bool :=
  match s.data with
  | c :: _ => c = '-'
  | [] => false

/-- `str[1:]`. -/
def dropFirstChar (s : String) : String := String.mk s.data.tail

/-- `FeedRequestParams.__init__` (lines 55-71): defaults, lower-casing of the
enum-valued parameters, the `value`→`name` ordering alias rewrite, and
splitting of the reputation lists on `;` when the parameter is present. -/
def FeedRequestParams.init (qp : List (String × String)) : FeedRequestParams :=
  { feed_type := pyLower (dictGet qp "feed_type" "all")
    attack_type := pyLower (dictGet qp "attack_type" "all")
    max_age := dictGet qp "max_age" "3"
    min_days_seen := dictGet qp "min_days_seen" "1"
    include_reputation :=
      match qp.lookup "include_reputation" with
      | some s => pySplitSemicolon s
      | none => []
    exclude_reputation :=
      match qp.lookup "exclude_reputation" with
      | some s => pySplitSemicolon s
      | none => []
    feed_size := dictGet qp "feed_size" "5000"
    ordering := pyReplaceValueName (pyLower (dictGet qp "ordering" "-last_seen"))
    verbose := pyLower (dictGet qp "verbose" "false")
    paginate := pyLower (dictGet qp "paginate" "false")
    format := pyLower (dictGet qp "format_" "json") }

/-- Whether `needle` occurs as a contiguous run inside `hay`. -/
def charsInfixOf (needle : List Char) : List Char → Bool
  | [] => needle.isEmpty
  | c :: rest => needle.isPrefixOf (c :: rest) || charsInfixOf needle rest

/-- `"feed_type" in self.ordering`: substring containment test. -/
def orderingMentionsFeedType (ordering : String) : Bool :=
  charsInfixOf "feed_type".toList ordering.toList

/-- `FeedRequestParams.set_legacy_age` (lines 73-90).  Note: in the
`"persistent"` branch the source line 88 reads `self.min_days_seen: "10"`,
which is a bare variable annotation, not an assignment, so `min_days_seen`
is left unchanged there; this embedding reproduces that behaviour. -/
def FeedRequestParams.set_legacy_age (p : FeedRequestParams) (age : String) :
    FeedRequestParams :=
  match age with
  | "recent" =>
      { p with
        max_age := "3"
        min_days_seen := "1"
        ordering :=
          if orderingMentionsFeedType p.ordering then "-last_seen" else p.ordering }
  | "persistent" =>
      { p with
        max_age := "14"
        ordering :=
          if orderingMentionsFeedType p.ordering then "-attack_count" else p.ordering }
  | _ => p

/-- `get_valid_feed_types` (lines 93-95): the fixed built-in labels plus the
lower-cased names of the active registered honeypots.  The Python frozenset
is embedded as a list; only membership matters. -/
def get_valid_feed_types (honeypots : List Honeypot) : List String :=
  ["log4j", "cowrie", "all"] ++ (honeypots.filter (·.active)).map (fun hp => pyLower hp.name)

/-- Stable sort by the boolean should-precede-or-tie relation `le`: the
embedding of both Python's `sorted` (timsort, stable) and the record store's
stable `order_by`.  Any two stable sorts of the same total preorder agree
extensionally, so insertion sort is a faithful model. -/
def stableSortLe {α : Type} (le : α → α → Bool) (l : List α) : List α :=
  List.insertionSort (fun a b => le a b = true) l

/-- Store-level comparison key for `order_by(field)`.  The derived field
`feed_type` is not a raw store column (ordering by it is deferred to the
renderer), and unknown fields impose no store-level order. -/
def store_cmp (field : String) (a b : IOC) : Ordering :=
  match field with
  | "name" => compare a.name b.name
  | "last_seen" => compare a.last_seen b.last_seen
  | "first_seen" => compare a.first_seen b.first_seen
  | "attack_count" => compare a.attack_count b.attack_count
  | "interaction_count" => compare a.interaction_count b.interaction_count
  | "number_of_days_seen" => compare a.number_of_days_seen b.number_of_days_seen
  | "login_attempts" => compare a.login_attempts b.login_attempts
  | _ => Ordering.eq

/-- `.order_by(ordering)` (line 142): a leading `-` selects descending order;
the sort is stable. -/
def order_by (ordering : String) (l : List IOC) : List IOC :=
  if startsWithDash ordering then
    stableSortLe (fun a b => !(store_cmp (dropFirstChar ordering) b a == Ordering.gt)) l
  else
    stableSortLe (fun a b => !(store_cmp ordering a b == Ordering.gt)) l

/-- `query_dict[feed_params.attack_type] = True` (line 131): the attack-type
flag column selected by name.  The request serializer restricts
`attack_type` to `scanner`/`payload_request`/`all` upstream. -/
def attack_flag (attack_type : String) (i : IOC) : Bool :=
  match attack_type with
  | "scanner" => i.scanner
  | "payload_request" => i.payload_request
  | _ => false

/-- The `feed_type` part of `query_dict` (lines 123-128): no filter for
`all`, the boolean flag for the built-in labels, otherwise a
case-insensitive honeypot-membership name match (`__iexact`). -/
def feed_type_filter (feed_type : String) (i : IOC) : Bool :=
  if feed_type == "all" then true
  else if feed_type == "log4j" then i.log4j
  else if feed_type == "cowrie" then i.cowrie
  else i.general_honeypot.any (fun hp => pyLower hp.name == pyLower feed_type)

/-- The full `query_dict` predicate passed to `.filter(**query_dict)`
(lines 122-136): feed type, attack type, age cutoff, day-count floor and the
optional include-reputation membership test. -/
def query_filter (now maxAge minDays : Nat) (p : FeedRequestParams) (i : IOC) : Bool :=
  feed_type_filter p.feed_type i
  && (p.attack_type == "all" || attack_flag p.attack_type i)
  && decide (now - maxAge ≤ i.last_seen)
  && decide (minDays ≤ i.number_of_days_seen)
  && (p.include_reputation.isEmpty || p.include_reputation.contains i.ip_reputation)

/-- `.exclude(general_honeypot__active=False)` (line 139) removes a record
when any of its honeypot memberships is inactive. -/
def has_inactive_honeypot (i : IOC) : Bool :=
  i.general_honeypot.any (fun hp => hp.active == false)

/-- The filter stage of the queryset (lines 138-141): both `exclude` clauses
followed by `.filter(**query_dict)`.  The reputation `exclude` is applied
unconditionally; an empty list matches no record. -/
def ioc_filter (now maxAge minDays : Nat) (p : FeedRequestParams)
    (store : List IOC) : List IOC :=
  store.filter (fun i =>
    !(has_inactive_honeypot i)
    && !(p.exclude_reputation.contains i.ip_reputation)
    && query_filter now maxAge minDays p i)

/-- Modelled from the spec: `FeedsRequestSerializer` (`api/serializers.py`,
not among the given sources) re-validates the configuration — feed_type and
attack_type membership, numeric parameters, format enum (§4.3).  The
ordering whitelist is not enumerated by the spec and is not modelled. -/
def feeds_request_valid (p : FeedRequestParams) (valid_feed_types : List String) : Bool :=
  valid_feed_types.contains p.feed_type
  && ["all", "scanner", "payload_request"].contains p.attack_type
  && (pyToNat p.max_age).isSome
  && (pyToNat p.min_days_seen).isSome
  && (pyToNat p.feed_size).isSome
  && ["json", "csv", "txt"].contains p.format

/-- `get_queryset` (lines 98-152): validate the configuration, build the
filtered/ordered/truncated queryset (lazily, lines 138-144), perform the
statistics write (lines 146-149; a failure raises and aborts the request
before the queryset is evaluated), then evaluate and return the rows. -/
def get_queryset (now : Nat) (store : List IOC) (p : FeedRequestParams)
    (valid_feed_types : List String) (statsOk : Bool) : Except String (List IOC) :=
  if !(feeds_request_valid p valid_feed_types) then
    Except.error "validation error"
  else
    match pyToNat p.max_age, pyToNat p.min_days_seen, pyToNat p.feed_size with
    | some maxAge, some minDays, some feedSize =>
        let iocs := (order_by p.ordering (ioc_filter now maxAge minDays p store)).take feedSize
        if statsOk then Except.ok iocs else Except.error "statistics write failed"
    | _, _, _ => Except.error "invalid integer parameter"

/-- Modelled from the spec: `FEEDS_LICENSE` (`greedybear/consts.py`, not among
the given sources) is the fixed license identifier interpolated into the
license line; its exact text is immaterial to every property below. -/
def FEEDS_LICENSE : String := "feeds-license"

/-- The license line (lines 172-174). -/
def license_text : String :=
  "# These feeds are generated by The Honeynet Project"
  ++ " once every 10 minutes and are protected"
  ++ " by the following license: " ++ FEEDS_LICENSE

/-- `%Y-%m-%d` date rendering over day counts, abstracted: no property below
inspects the formatted text. -/
def strftimeYMD (d : Nat) : String := toString d

/-- The rendered feed item: the `data_` dict of the JSON path
(lines 210-229).  The three verbose-only keys are `Option`s, `none` when the
key is absent. -/
structure FeedItem where
  value : String
  scanner : Bool
  payload_request : Bool
  first_seen : String
  last_seen : String
  attack_count : Nat
  interaction_count : Nat
  feed_type : String
  ip_reputation : String
  asn : Option Int
  destination_port_count : Nat
  login_attempts : Nat
  days_seen : Option (List Nat)
  destination_ports : Option (List Nat)
  honeypots : Option (List String)
deriving Repr, DecidableEq

/-- Resolution of a record's `feed_type` label (lines 200-209): a specific
requested feed type is used directly; otherwise the `log4j` flag, then the
`cowrie` flag, then `str(ioc.general_honeypot.all()[0]).lower()` — which
raises `IndexError` when the membership list is empty. -/
def resolve_feed_type (requested : String) (i : IOC) : Except String String :=
  if !(["all", "log4j", "cowrie"].contains requested) then Except.ok requested
  else if i.log4j then Except.ok "log4j"
  else if i.cowrie then Except.ok "cowrie"
  else
    match i.general_honeypot with
    | [] => Except.error "list index out of range"
    | hp :: _ => Except.ok (pyLower hp.name)

/-- Build the `data_` dict for one record (lines 210-229), given its resolved
label; `verbose` adds `days_seen`, `destination_ports` and `honeypots`
(with the resolved built-in label appended, lines 224-229). -/
def render_item (i : IOC) (ft : String) (verbose : Bool) : FeedItem :=
  { value := i.name
    scanner := i.scanner
    payload_request := i.payload_request
    first_seen := strftimeYMD i.first_seen
    last_seen := strftimeYMD i.last_seen
    attack_count := i.attack_count
    interaction_count := i.interaction_count
    feed_type := ft
    ip_reputation := i.ip_reputation
    asn := i.asn
    destination_port_count := i.destination_ports.length
    login_attempts := i.login_attempts
    days_seen := if verbose then some i.days_seen else none
    destination_ports := if verbose then some i.destination_ports else none
    honeypots :=
      if verbose then
        some (i.general_honeypot.map (fun hp => hp.name)
          ++ (if ["log4j", "cowrie"].contains ft then [ft] else []))
      else none }

/-- One iteration of the JSON loop (lines 199-239): classify, render, then
either append directly (`SKIP_FEED_VALIDATION or verbose`, lines 231-233) or
schema-validate with `raise_exception=True` (lines 234-239).  `skip` is the
global `SKIP_FEED_VALIDATION` setting and `valid` the
`FeedsResponseSerializer` pass/fail verdict (external, §6 of the spec). -/
def process_ioc (skip verbose : Bool) (valid : FeedItem → Bool) (requested : String)
    (i : IOC) : Except String FeedItem :=
  match resolve_feed_type requested i with
  | Except.error e => Except.error e
  | Except.ok ft =>
      let item := render_item i ft verbose
      if skip || verbose then Except.ok item
      else if valid item then Except.ok item
      else Except.error "validation error"

/-- The JSON loop over all records, in list order; the first failing record
aborts the whole run. -/
def render_all (skip verbose : Bool) (valid : FeedItem → Bool) (requested : String) :
    List IOC → Except String (List FeedItem)
  | [] => Except.ok []
  | i :: rest =>
      match process_ioc skip verbose valid requested i with
      | Except.error e => Except.error e
      | Except.ok item =>
          match render_all skip verbose valid requested rest with
          | Except.error e => Except.error e
          | Except.ok items => Except.ok (item :: items)

/-- Python's `sorted(key=lambda k: k["feed_type"], reverse=desc)` comparison:
stable, by the resolved label. -/
def feed_type_le (desc : Bool) (a b : FeedItem) : Bool :=
  if desc then decide (b.feed_type ≤ a.feed_type)
  else decide (a.feed_type ≤ b.feed_type)

/-- The JSON rendering path (lines 195-253): run the loop, then apply the
in-memory post-sort when ordering is `feed_type`/`-feed_type` (lines
241-250; the source replaces the list only when the sorted list is
non-empty).  Result: the `iocs` list of the `{license, iocs}` payload. -/
def feeds_response_json (skip verbose : Bool) (valid : FeedItem → Bool)
    (p : FeedRequestParams) (iocs : List IOC) : Except String (List FeedItem) :=
  match render_all skip verbose valid p.feed_type iocs with
  | Except.error e => Except.error e
  | Except.ok json_list =>
      let sorted_list :=
        if p.ordering == "feed_type" then stableSortLe (feed_type_le false) json_list
        else if p.ordering == "-feed_type" then stableSortLe (feed_type_le true) json_list
        else []
      Except.ok (if sorted_list.isEmpty then json_list else sorted_list)

/-- Python's `sep.join(strings)`. -/
def str_join (sep : String) : List String → String
  | [] => ""
  | [x] => x
  | x :: y :: xs => x ++ sep ++ str_join sep (y :: xs)

/-- The in-memory post-sort step of the JSON path (lines 241-250), extracted
as a function of the requested ordering; `feeds_response_json` is proved
equal to the loop followed by this step. -/
def post_sort (ordering : String) (jl : List FeedItem) : List FeedItem :=
  if ordering == "feed_type" then stableSortLe (feed_type_le false) jl
  else if ordering == "-feed_type" then stableSortLe (feed_type_le true) jl
  else jl

/-- The txt rendering path (lines 176-181): the license line, then one line
per record holding the bare IOC value, joined with newlines. -/
def feeds_response_txt (iocs : List IOC) : String :=
  str_join "\n" (license_text :: iocs.map (fun i => i.name))

/-- The row list the CSV path materializes BEFORE the streaming response is
constructed (lines 183-186): the license row, then one single-field row per
record. -/
def csv_prebuilt_rows (iocs : List IOC) : List (List String) :=
  [license_text] :: iocs.map (fun i => [i.name])

/-- `csv.writer(..., quoting=csv.QUOTE_NONE).writerow` through the `Echo`
pseudo-buffer (lines 18-33, 187-188): the unquoted comma-joined row text
with the CRLF terminator, returned instead of buffered. -/
def csv_writerow (row : List String) : String :=
  str_join "," row ++ "\r\n"

/-- The CSV rendering path (lines 182-194): the generator
`(writer.writerow(row) for row in rows)` mapped over the pre-built row list;
the streamed body is this sequence of serialized rows. -/
def feeds_response_csv (iocs : List IOC) : List String :=
  (csv_prebuilt_rows iocs).map csv_writerow

/-! Concrete fixtures used to instantiate the theorems below. -/

/-- Fixture: an active registered honeypot. -/
def sampleHoneypot : Honeypot := { name := "Adbhoney", active := true }

/-- Fixture: the §8 scenario record — value `1.2.3.4`, `log4j` set,
seen on 2 days. -/
def sampleLog4j : IOC :=
  { name := "1.2.3.4", log4j := true, cowrie := false, scanner := true,
    payload_request := false, first_seen := 10, last_seen := 20,
    number_of_days_seen := 2, attack_count := 5, interaction_count := 7,
    ip_reputation := "", asn := some 9, destination_ports := [80],
    login_attempts := 1, days_seen := [19, 20], general_honeypot := [] }

/-- Fixture: a `cowrie`-flagged record. -/
def sampleCowrie : IOC :=
  { sampleLog4j with
      name := "5.6.7.8", log4j := false, cowrie := true }

/-- Fixture: a record classified only through an active honeypot membership. -/
def sampleGeneral : IOC :=
  { sampleLog4j with
      name := "8.8.8.8", log4j := false, cowrie := false,
      general_honeypot := [sampleHoneypot] }

/-- Fixture: a record with no built-in flag and no honeypot membership. -/
def sampleOrphan : IOC :=
  { sampleLog4j with
      name := "9.9.9.9", log4j := false, cowrie := false,
      general_honeypot := [] }

/-- Fixture: the configuration produced by a request with no parameters. -/
def defaultParams : FeedRequestParams := FeedRequestParams.init []

/-- Fixture: a response validator that accepts every item. -/
def acceptAll : FeedItem → Bool := fun _ => true

/-- Fixture: a response validator that rejects every item. -/
def rejectAll : FeedItem → Bool := fun _ => false

/-- Fixture: a request ordering by the derived feed_type field, ascending. -/
def feedTypeAscParams : FeedRequestParams :=
  FeedRequestParams.init [("ordering", "feed_type")]

end GreedyBear

namespace GreedyBear

/-! ## Theorems -/

/-- `str_join` over a cons: the separator precedes every later element. -/
theorem str_join_cons (sep a : String) (l : List String) :
    str_join sep (a :: l) = a ++ (l.map (fun s => sep ++ s)).foldr (· ++ ·) "" := by
  induction l generalizing a with
  | nil => simp [str_join]
  | cons b t ih =>
      show a ++ sep ++ str_join sep (b :: t) = _
      rw [ih b]
      simp [String.append_assoc]

/-- C1: with the default configuration, the legacy-age translation for
`"persistent"` sets `max_age` to `"14"` and resets a feed_type-oriented
ordering to `"-attack_count"`, but leaves `min_days_seen` at its prior value
`"1"` rather than `"10"`: source line 88 reads `self.min_days_seen: "10"`,
a bare variable annotation instead of an assignment, contradicting both the
claim and the function's own docstring. -/
theorem set_legacy_age_persistent_eval :
    ((defaultParams.set_legacy_age "persistent").max_age = "14"
      ∧ (defaultParams.set_legacy_age "persistent").min_days_seen = "1"
      ∧ (defaultParams.set_legacy_age "persistent").min_days_seen ≠ "10")
    ∧ ((FeedRequestParams.init [("ordering", "feed_type")]).set_legacy_age
        "persistent").ordering = "-attack_count" :=
  ⟨⟨rfl, rfl, by decide⟩, rfl⟩

/-- C2 counterexample: with an empty store and the default configuration, the
request returns the query rows when the statistics write succeeds but an
error when it fails — the result handed to the caller is not independent of
the write's outcome, because `request_source.save()` (line 149) is not
guarded by any exception handler. -/
theorem stats_failure_alters_result :
    get_queryset 0 [] defaultParams ["log4j", "cowrie", "all"] true = Except.ok []
    ∧ get_queryset 0 [] defaultParams ["log4j", "cowrie", "all"] false
        = Except.error "statistics write failed" :=
  ⟨rfl, rfl⟩

/-- C2 (amended): the statistics write never alters a successful response —
when it succeeds the returned rows are exactly the filtered, ordered,
truncated query result, a value computed independently of the write — but a
write failure aborts the request with an error instead of returning those
rows (there is no log-and-continue). -/
theorem stats_write_abort_and_independence (now : Nat) (store : List IOC)
    (p : FeedRequestParams) (vft : List String)
    (hv : feeds_request_valid p vft = true) :
    get_queryset now store p vft false = Except.error "statistics write failed"
    ∧ ∀ maxAge minDays feedSize, pyToNat p.max_age = some maxAge →
        pyToNat p.min_days_seen = some minDays → pyToNat p.feed_size = some feedSize →
        get_queryset now store p vft true =
          Except.ok ((order_by p.ordering
            (ioc_filter now maxAge minDays p store)).take feedSize) := by
  have hv' := hv
  simp only [feeds_request_valid, Bool.and_eq_true] at hv'
  have hma := hv'.1.1.1.2
  have hmd := hv'.1.1.2
  have hfs := hv'.1.2
  constructor
  · rw [Option.isSome_iff_exists] at hma hmd hfs
    obtain ⟨a, ha⟩ := hma
    obtain ⟨b, hb⟩ := hmd
    obtain ⟨c, hc⟩ := hfs
    simp [get_queryset, hv, ha, hb, hc]
  · intro maxAge minDays feedSize ha hb hc
    simp [get_queryset, hv, ha, hb, hc]

/-- Witness for the amended C2 theorem at a concrete request. -/
theorem stats_write_abort_and_independence_witness :
    get_queryset 0 [] defaultParams ["log4j", "cowrie", "all"] false
      = Except.error "statistics write failed"
    ∧ get_queryset 0 [] defaultParams ["log4j", "cowrie", "all"] true
      = Except.ok ((order_by defaultParams.ordering
          (ioc_filter 0 3 1 defaultParams [])).take 5000) :=
  ⟨(stats_write_abort_and_independence 0 [] defaultParams ["log4j", "cowrie", "all"]
      (by decide)).1,
   (stats_write_abort_and_independence 0 [] defaultParams ["log4j", "cowrie", "all"]
      (by decide)).2 3 1 5000 rfl rfl rfl⟩

/-- C3 counterexample: for a concrete two-record store the CSV path
materializes the complete list of rows — the license row plus one row for
every record — in memory (source lines 183-186) before the streaming
response over that list is constructed (lines 189-194); the emitted stream
is just the serialization of the pre-built list, refuting the claim that no
complete list of all rows is built before emission begins. -/
theorem csv_prebuilds_all_rows :
    csv_prebuilt_rows [sampleLog4j, sampleCowrie]
      = [[license_text], ["1.2.3.4"], ["5.6.7.8"]]
    ∧ feeds_response_csv [sampleLog4j, sampleCowrie]
      = (csv_prebuilt_rows [sampleLog4j, sampleCowrie]).map csv_writerow :=
  ⟨rfl, rfl⟩

/-- C3 (amended): the CSV path first builds the complete row list in memory —
the license row plus one row per record, so the buffered list grows linearly
with the record count — and only the CSV serialization of each row is
emitted incrementally: the streamed body is exactly the row-wise
serialization of that pre-built list. -/
theorem csv_rows_materialized_then_serialized (iocs : List IOC) :
    csv_prebuilt_rows iocs = [license_text] :: iocs.map (fun i => [i.name])
    ∧ (csv_prebuilt_rows iocs).length = iocs.length + 1
    ∧ feeds_response_csv iocs
        = csv_writerow [license_text] :: iocs.map (fun i => csv_writerow [i.name]) := by
  refine ⟨rfl, by simp [csv_prebuilt_rows], ?_⟩
  simp [feeds_response_csv, csv_prebuilt_rows]

/-- C8: the txt path renders the license line followed by exactly one line
per record containing only that record's IOC value, joined by newlines (no
per-item validation and no feed_type classification are involved); for the
single §8 scenario record the body is the license text, a newline, then
`1.2.3.4`. -/
theorem txt_rendering_shape (iocs : List IOC) :
    feeds_response_txt iocs
      = license_text ++ (iocs.map (fun i => "\n" ++ i.name)).foldr (· ++ ·) ""
    ∧ feeds_response_txt [sampleLog4j] = license_text ++ "\n" ++ "1.2.3.4" := by
  constructor
  · rw [feeds_response_txt, str_join_cons]
    simp [List.map_map, Function.comp_def]
  · rfl

/-- C10: a present-but-empty reputation parameter is split into the
one-element list containing the empty string (not the empty list), and
consequently an empty-string exclude_reputation parameter excludes every
record whose ip_reputation is the empty string, instead of excluding
nothing. -/
theorem empty_reputation_param_excludes_empty_string :
    (FeedRequestParams.init [("exclude_reputation", "")]).exclude_reputation = [""]
    ∧ (FeedRequestParams.init [("include_reputation", "")]).include_reputation = [""]
    ∧ ∀ now maxAge minDays store (i : IOC), i.ip_reputation = "" →
        i ∉ ioc_filter now maxAge minDays
            (FeedRequestParams.init [("exclude_reputation", "")]) store := by
  refine ⟨rfl, rfl, ?_⟩
  intro now maxAge minDays store i hrep hmem
  rw [ioc_filter, List.mem_filter] at hmem
  have h2 := hmem.2
  have hexc : (FeedRequestParams.init
      [("exclude_reputation", "")]).exclude_reputation = [""] := rfl
  simp [hrep, hexc] at h2

/-- Witness for the C10 theorem at a concrete record. -/
theorem empty_reputation_param_excludes_empty_string_witness :
    sampleLog4j ∉ ioc_filter 0 3 1
      (FeedRequestParams.init [("exclude_reputation", "")]) [sampleLog4j] :=
  empty_reputation_param_excludes_empty_string.2.2 0 3 1 [sampleLog4j] sampleLog4j rfl

/-- Membership is invariant under a stable sort. -/
theorem mem_stableSortLe {α : Type} {le : α → α → Bool} {l : List α} {x : α} :
    x ∈ stableSortLe le l ↔ x ∈ l := by
  unfold stableSortLe
  exact List.mem_insertionSort _

/-- Membership is invariant under the store-level ordering. -/
theorem mem_order_by {ordering : String} {l : List IOC} {i : IOC} :
    i ∈ order_by ordering l ↔ i ∈ l := by
  rw [order_by]
  split <;> exact mem_stableSortLe

/-- A successful `get_queryset` run returns the truncated, ordered filter
stage, with the integer parameters parsed from the configuration. -/
theorem get_queryset_ok_elim {now : Nat} {store : List IOC} {p : FeedRequestParams}
    {vft : List String} {statsOk : Bool} {l : List IOC}
    (h : get_queryset now store p vft statsOk = Except.ok l) :
    ∃ maxAge minDays feedSize,
      pyToNat p.max_age = some maxAge ∧ pyToNat p.min_days_seen = some minDays
      ∧ pyToNat p.feed_size = some feedSize
      ∧ l = (order_by p.ordering (ioc_filter now maxAge minDays p store)).take feedSize := by
  rw [get_queryset] at h
  split at h
  · exact Except.noConfusion h
  · split at h
    · rename_i maxAge minDays feedSize hma hmd hfs
      split at h
      · injection h with h
        exact ⟨maxAge, minDays, feedSize, hma, hmd, hfs, h.symm⟩
      · exact Except.noConfusion h
    · exact Except.noConfusion h

/-- A record accepted by the JSON loop carries the resolved label and is the
rendering of its source record. -/
theorem process_ioc_ok_feed_type {skip verbose : Bool} {valid : FeedItem → Bool}
    {requested : String} {i : IOC} {item : FeedItem}
    (h : process_ioc skip verbose valid requested i = Except.ok item) :
    resolve_feed_type requested i = Except.ok item.feed_type
    ∧ item = render_item i item.feed_type verbose := by
  rw [process_ioc] at h
  cases hres : resolve_feed_type requested i with
  | error e => rw [hres] at h; exact Except.noConfusion h
  | ok ft =>
      rw [hres] at h
      simp only [Except.ok.injEq] at h
      split at h
      · injection h with h
        subst h
        exact ⟨rfl, rfl⟩
      · split at h
        · injection h with h
          subst h
          exact ⟨rfl, rfl⟩
        · exact Except.noConfusion h

/-- C4: first-match-wins classification precedence on the JSON path: a
non-generic requested feed_type is used directly; otherwise the log4j flag,
then the cowrie flag, then the lower-cased name of the first registered
honeypot membership; and an item accepted by the loop carries exactly the
resolved label. -/
theorem feed_type_resolution_precedence (requested : String) (i : IOC) :
    (requested ∉ ["all", "log4j", "cowrie"] →
      resolve_feed_type requested i = Except.ok requested)
    ∧ (requested ∈ ["all", "log4j", "cowrie"] →
        (i.log4j = true → resolve_feed_type requested i = Except.ok "log4j")
        ∧ (i.log4j = false → i.cowrie = true →
            resolve_feed_type requested i = Except.ok "cowrie")
        ∧ (∀ hp tl, i.log4j = false → i.cowrie = false →
            i.general_honeypot = hp :: tl →
            resolve_feed_type requested i = Except.ok (pyLower hp.name)))
    ∧ ∀ skip verbose valid item,
        process_ioc skip verbose valid requested i = Except.ok item →
        resolve_feed_type requested i = Except.ok item.feed_type := by
  refine ⟨?_, ?_, ?_⟩
  · intro h
    have hc : (["all", "log4j", "cowrie"].contains requested) = false := by simpa using h
    unfold resolve_feed_type
    rw [hc]
    rfl
  · intro h
    have hc : (["all", "log4j", "cowrie"].contains requested) = true := by simpa using h
    refine ⟨?_, ?_, ?_⟩
    · intro hl
      unfold resolve_feed_type
      rw [hc, hl]
      rfl
    · intro hl hcw
      unfold resolve_feed_type
      rw [hc, hl, hcw]
      rfl
    · intro hp tl hl hcw hg
      unfold resolve_feed_type
      rw [hc, hl, hcw, hg]
      rfl
  · intro skip verbose valid item h
    exact (process_ioc_ok_feed_type h).1

/-- Witness for the C4 theorem: a non-generic request labels directly; a
generic request falls through to the first honeypot membership. -/
theorem feed_type_resolution_precedence_witness :
    resolve_feed_type "adbhoney" sampleGeneral = Except.ok "adbhoney"
    ∧ resolve_feed_type "all" sampleGeneral = Except.ok "adbhoney" :=
  ⟨(feed_type_resolution_precedence "adbhoney" sampleGeneral).1 (by decide),
   ((feed_type_resolution_precedence "all" sampleGeneral).2.1 (by decide)).2.2
     sampleHoneypot [] rfl rfl rfl⟩

/-- Membership in the filter stage of the queryset, unfolded. -/
theorem mem_ioc_filter {now maxAge minDays : Nat} {p : FeedRequestParams}
    {store : List IOC} {i : IOC} :
    i ∈ ioc_filter now maxAge minDays p store ↔
      i ∈ store ∧ has_inactive_honeypot i = false
        ∧ i.ip_reputation ∉ p.exclude_reputation
        ∧ query_filter now maxAge minDays p i = true := by
  rw [ioc_filter, List.mem_filter]
  simp [Bool.and_eq_true, Bool.not_eq_true', and_assoc]

/-- With validation skipped (`SKIP_FEED_VALIDATION or verbose`), one loop
step never consults the validator. -/
theorem process_ioc_validator_irrelevant {skip verbose : Bool}
    (h : (skip || verbose) = true) (v₁ v₂ : FeedItem → Bool) (requested : String)
    (i : IOC) :
    process_ioc skip verbose v₁ requested i
      = process_ioc skip verbose v₂ requested i := by
  rw [process_ioc, process_ioc]
  cases resolve_feed_type requested i with
  | error e => rfl
  | ok ft => simp [h]

/-- With validation skipped, the whole loop never consults the validator. -/
theorem render_all_validator_irrelevant {skip verbose : Bool}
    (h : (skip || verbose) = true) (v₁ v₂ : FeedItem → Bool) (requested : String) :
    ∀ iocs, render_all skip verbose v₁ requested iocs
      = render_all skip verbose v₂ requested iocs := by
  intro iocs
  induction iocs with
  | nil => rfl
  | cons i rest ih =>
      simp only [render_all]
      rw [process_ioc_validator_irrelevant h v₁ v₂ requested i, ih]

/-- A successful loop run yields one item per record: the result has the
same length, every output item comes from a processed record, and every
record contributes an output item. -/
theorem render_all_ok_props {skip verbose : Bool} {valid : FeedItem → Bool}
    {requested : String} : ∀ {iocs : List IOC} {l : List FeedItem},
    render_all skip verbose valid requested iocs = Except.ok l →
    l.length = iocs.length
    ∧ (∀ x ∈ l, ∃ i ∈ iocs, process_ioc skip verbose valid requested i = Except.ok x)
    ∧ (∀ i ∈ iocs, ∃ x ∈ l, process_ioc skip verbose valid requested i = Except.ok x) := by
  intro iocs
  induction iocs with
  | nil =>
      intro l h
      simp only [render_all] at h
      injection h with h
      subst h
      exact ⟨rfl, by simp, by simp⟩
  | cons i rest ih =>
      intro l h
      simp only [render_all] at h
      cases hp : process_ioc skip verbose valid requested i with
      | error e => rw [hp] at h; exact Except.noConfusion h
      | ok item =>
          simp only [hp] at h
          cases hr : render_all skip verbose valid requested rest with
          | error e => rw [hr] at h; exact Except.noConfusion h
          | ok items =>
              simp only [hr] at h
              injection h with h
              subst h
              obtain ⟨hlen, hforw, hback⟩ := ih hr
              refine ⟨by simp [hlen], ?_, ?_⟩
              · intro x hx
                rcases List.mem_cons.mp hx with rfl | hx2
                · exact ⟨i, List.mem_cons_self _ _, hp⟩
                · obtain ⟨j, hj, hpj⟩ := hforw x hx2
                  exact ⟨j, List.mem_cons_of_mem _ hj, hpj⟩
              · intro j hj
                rcases List.mem_cons.mp hj with rfl | hj2
                · exact ⟨item, List.mem_cons_self _ _, hp⟩
                · obtain ⟨x, hx, hpx⟩ := hback j hj2
                  exact ⟨x, List.mem_cons_of_mem _ hx, hpx⟩

/-- A record whose step fails makes the whole loop fail. -/
theorem render_all_error_of_process_error {skip verbose : Bool}
    {valid : FeedItem → Bool} {requested : String} {i : IOC} {e : String}
    (hp : process_ioc skip verbose valid requested i = Except.error e) :
    ∀ {iocs : List IOC} {l : List FeedItem}, i ∈ iocs →
      render_all skip verbose valid requested iocs ≠ Except.ok l := by
  intro iocs l hmem h
  obtain ⟨-, -, hback⟩ := render_all_ok_props h
  obtain ⟨x, -, hpx⟩ := hback i hmem
  rw [hp] at hpx
  exact Except.noConfusion hpx

/-- The length of a stable sort. -/
theorem stableSortLe_length {α : Type} (le : α → α → Bool) (l : List α) :
    (stableSortLe le l).length = l.length := by
  unfold stableSortLe
  exact List.length_insertionSort _ _

/-- A stable sort is empty only for the empty list. -/
theorem stableSortLe_eq_nil {α : Type} {le : α → α → Bool} {l : List α}
    (h : stableSortLe le l = []) : l = [] := by
  have hlen := stableSortLe_length le l
  rw [h] at hlen
  exact List.length_eq_zero.mp hlen.symm

/-- The source's guard `if sorted_list:` (line 248) collapses: replacing the
list only when the sorted list is non-empty equals always replacing it. -/
theorem sorted_branch_collapse {α : Type} (le : α → α → Bool) (l : List α) :
    (if (stableSortLe le l).isEmpty then l else stableSortLe le l)
      = stableSortLe le l := by
  cases hl : stableSortLe le l with
  | nil =>
      have hlen : l.length = 0 := by
        have h := stableSortLe_length le l
        rw [hl] at h
        exact h.symm
      rw [List.length_eq_zero] at hlen
      simp [hlen]
  | cons a t => simp [hl]

/-- The JSON path is the loop followed by the extracted post-sort step. -/
theorem feeds_response_json_eq (skip verbose : Bool) (valid : FeedItem → Bool)
    (p : FeedRequestParams) (iocs : List IOC) :
    feeds_response_json skip verbose valid p iocs
      = match render_all skip verbose valid p.feed_type iocs with
        | Except.error e => Except.error e
        | Except.ok jl => Except.ok (post_sort p.ordering jl) := by
  rw [feeds_response_json]
  cases hr : render_all skip verbose valid p.feed_type iocs with
  | error e => rfl
  | ok jl =>
      by_cases h1 : (p.ordering == "feed_type") = true
      · simp only [post_sort, h1]
        simp [sorted_branch_collapse]
        intro h
        rw [stableSortLe_eq_nil h]
        rfl
      · by_cases h2 : (p.ordering == "-feed_type") = true
        · simp [post_sort, h1, h2, sorted_branch_collapse]
          intro h
          rw [stableSortLe_eq_nil h]
          rfl
        · simp [post_sort, h1, h2]

/-- The post-sort keeps the length. -/
theorem post_sort_length (ordering : String) (jl : List FeedItem) :
    (post_sort ordering jl).length = jl.length := by
  rw [post_sort]
  split
  · exact stableSortLe_length _ _
  · split
    · exact stableSortLe_length _ _
    · rfl

/-- The post-sort keeps the members. -/
theorem mem_post_sort {ordering : String} {jl : List FeedItem} {x : FeedItem} :
    x ∈ post_sort ordering jl ↔ x ∈ jl := by
  rw [post_sort]
  split
  · exact mem_stableSortLe
  · split
    · exact mem_stableSortLe
    · exact Iff.rfl

/-- An item accepted by a non-skipping, non-verbose loop step passed the
validator. -/
theorem process_ioc_ok_valid {valid : FeedItem → Bool} {requested : String}
    {i : IOC} {item : FeedItem}
    (h : process_ioc false false valid requested i = Except.ok item) :
    valid item = true := by
  rw [process_ioc] at h
  cases hres : resolve_feed_type requested i with
  | error e => rw [hres] at h; exact Except.noConfusion h
  | ok ft =>
      simp only [hres, Bool.or_self] at h
      rw [if_neg (by simp)] at h
      by_cases hv : valid (render_item i ft false) = true
      · rw [if_pos hv] at h
        injection h with h
        rw [← h]
        exact hv
      · rw [if_neg hv] at h
        exact Except.noConfusion h

/-- C7: the reputation exclusion is applied unconditionally: membership in
the filter stage is exactly activity, non-excluded reputation and the
query_dict predicate (so an empty set excludes nothing); when
include_reputation is also set, a surviving record satisfies both the
include and the exclude condition; and no record whose ip_reputation lies
in the exclusion set ever appears in a successful result. -/
theorem exclude_reputation_unconditional (now maxAge minDays : Nat)
    (p : FeedRequestParams) (store : List IOC) (i : IOC) :
    (i ∈ ioc_filter now maxAge minDays p store ↔
      i ∈ store ∧ has_inactive_honeypot i = false
        ∧ i.ip_reputation ∉ p.exclude_reputation
        ∧ query_filter now maxAge minDays p i = true)
    ∧ (p.exclude_reputation = [] →
        ioc_filter now maxAge minDays p store = store.filter
          (fun x => !(has_inactive_honeypot x) && query_filter now maxAge minDays p x))
    ∧ (i ∈ ioc_filter now maxAge minDays p store →
        p.include_reputation ≠ [] →
        p.include_reputation.contains i.ip_reputation = true
        ∧ i.ip_reputation ∉ p.exclude_reputation)
    ∧ ∀ vft statsOk l, i.ip_reputation ∈ p.exclude_reputation →
        get_queryset now store p vft statsOk = Except.ok l → i ∉ l := by
  refine ⟨mem_ioc_filter, ?_, ?_, ?_⟩
  · intro h
    rw [ioc_filter]
    apply List.filter_congr
    intro x _
    simp [h]
  · intro hmem hinc
    have h := mem_ioc_filter.mp hmem
    refine ⟨?_, h.2.2.1⟩
    have hq := h.2.2.2
    rw [query_filter] at hq
    simp only [Bool.and_eq_true, Bool.or_eq_true] at hq
    rcases hq.2 with he | hc
    · exact absurd (List.isEmpty_iff.mp he) hinc
    · exact hc
  · intro vft statsOk l hexc hq hin
    obtain ⟨ma, md, fs, -, -, -, rfl⟩ := get_queryset_ok_elim hq
    have h1 := List.take_subset fs _ hin
    rw [mem_order_by] at h1
    exact (mem_ioc_filter.mp h1).2.2.1 hexc

/-- Witness for the C7 theorem: a record with excluded reputation never
appears in the filter stage; with an empty exclusion set the stage keeps the
qualifying record. -/
theorem exclude_reputation_unconditional_witness :
    sampleLog4j ∉ ioc_filter 20 3 1
      { defaultParams with exclude_reputation := [""] } [sampleLog4j]
    ∧ sampleLog4j ∈ ioc_filter 20 3 1 defaultParams [sampleLog4j] :=
  ⟨fun hmem =>
    ((exclude_reputation_unconditional 20 3 1
      { defaultParams with exclude_reputation := [""] } [sampleLog4j]
      sampleLog4j).1.mp hmem).2.2.1 (by decide),
   (exclude_reputation_unconditional 20 3 1 defaultParams [sampleLog4j]
      sampleLog4j).1.mpr ⟨by decide, rfl, by decide, by decide⟩⟩

/-- C5: on the JSON path, when verbose is false and the global
skip-validation mode is off, every returned item passed the validator and
none was skipped (the result has exactly one item per record), and a single
invalid rendered item aborts the entire response with an error; when
verbose is true or skip-validation is on, the validator is never consulted,
so items are included without per-item validation. -/
theorem json_validation_policy (skip verbose : Bool)
    (v₁ v₂ valid : FeedItem → Bool) (p : FeedRequestParams) (iocs : List IOC) :
    ((skip || verbose) = true →
      feeds_response_json skip verbose v₁ p iocs
        = feeds_response_json skip verbose v₂ p iocs)
    ∧ (∀ l, feeds_response_json false false valid p iocs = Except.ok l →
        l.length = iocs.length ∧ ∀ x ∈ l, valid x = true)
    ∧ ((∃ i ∈ iocs, ∃ ft, resolve_feed_type p.feed_type i = Except.ok ft
          ∧ valid (render_item i ft false) = false) →
        ∃ e, feeds_response_json false false valid p iocs = Except.error e) := by
  refine ⟨?_, ?_, ?_⟩
  · intro h
    rw [feeds_response_json, feeds_response_json,
        render_all_validator_irrelevant h v₁ v₂ p.feed_type iocs]
  · intro l h
    rw [feeds_response_json_eq] at h
    cases hr : render_all false false valid p.feed_type iocs with
    | error e => rw [hr] at h; exact Except.noConfusion h
    | ok jl =>
        rw [hr] at h
        injection h with h
        subst h
        obtain ⟨hlen, hforw, -⟩ := render_all_ok_props hr
        constructor
        · rw [post_sort_length, hlen]
        · intro x hx
          obtain ⟨i, -, hpi⟩ := hforw x (mem_post_sort.mp hx)
          exact process_ioc_ok_valid hpi
  · intro hx
    obtain ⟨i, hi, ft, hft, hinv⟩ := hx
    have hp : process_ioc false false valid p.feed_type i
        = Except.error "validation error" := by
      rw [process_ioc, hft]
      simp [hinv]
    cases hj : feeds_response_json false false valid p iocs with
    | error e => exact ⟨e, rfl⟩
    | ok l =>
        rw [feeds_response_json_eq] at hj
        cases hr : render_all false false valid p.feed_type iocs with
        | error e => rw [hr] at hj; exact Except.noConfusion hj
        | ok jl => exact absurd hr (render_all_error_of_process_error hp hi)

/-- Witness for the C5 theorem: with validation skipped the rejecting and
accepting validators agree; without skipping, the rejecting validator
aborts the response; the accepting validator returns one valid item. -/
theorem json_validation_policy_witness :
    (feeds_response_json false true rejectAll defaultParams [sampleLog4j]
      = feeds_response_json false true acceptAll defaultParams [sampleLog4j])
    ∧ (∃ e, feeds_response_json false false rejectAll defaultParams [sampleLog4j]
        = Except.error e)
    ∧ [render_item sampleLog4j "log4j" false].length = 1 :=
  ⟨(json_validation_policy false true rejectAll acceptAll rejectAll
      defaultParams [sampleLog4j]).1 rfl,
   (json_validation_policy false false rejectAll acceptAll rejectAll
      defaultParams [sampleLog4j]).2.2
      ⟨sampleLog4j, List.mem_cons_self _ _, "log4j", rfl, rfl⟩,
   ((json_validation_policy false false rejectAll acceptAll acceptAll
      defaultParams [sampleLog4j]).2.1
      [render_item sampleLog4j "log4j" false] rfl).1⟩

/-- C9: for a record reached with a generic requested feed_type whose log4j
and cowrie flags are both false and whose honeypot-membership list is
empty, classification raises the index error of
`ioc.general_honeypot.all()[0]` instead of producing a fallback label, and
the whole JSON response aborts (it is never a success value). -/
theorem empty_membership_aborts (requested : String) (i : IOC)
    (hreq : requested ∈ ["all", "log4j", "cowrie"]) (hl : i.log4j = false)
    (hc : i.cowrie = false) (hg : i.general_honeypot = []) :
    resolve_feed_type requested i = Except.error "list index out of range"
    ∧ ∀ skip verbose valid (p : FeedRequestParams) iocs l,
        p.feed_type = requested → i ∈ iocs →
        feeds_response_json skip verbose valid p iocs ≠ Except.ok l := by
  have hcc : (["all", "log4j", "cowrie"].contains requested) = true := by
    simpa using hreq
  have hres : resolve_feed_type requested i
      = Except.error "list index out of range" := by
    unfold resolve_feed_type
    rw [hcc, hl, hc, hg]
    rfl
  refine ⟨hres, ?_⟩
  intro skip verbose valid p iocs l hft hmem hok
  have hp : process_ioc skip verbose valid requested i
      = Except.error "list index out of range" := by
    rw [process_ioc, hres]
  rw [feeds_response_json_eq] at hok
  cases hr : render_all skip verbose valid p.feed_type iocs with
  | error e => rw [hr] at hok; exact Except.noConfusion hok
  | ok jl =>
      rw [hft] at hr
      exact render_all_error_of_process_error hp hmem hr

/-- Witness for the C9 theorem at a concrete orphan record. -/
theorem empty_membership_aborts_witness :
    resolve_feed_type "all" sampleOrphan = Except.error "list index out of range"
    ∧ feeds_response_json false false acceptAll defaultParams [sampleOrphan]
        ≠ Except.ok [] :=
  ⟨(empty_membership_aborts "all" sampleOrphan (by decide) rfl rfl rfl).1,
   (empty_membership_aborts "all" sampleOrphan (by decide) rfl rfl rfl).2
     false false acceptAll defaultParams [sampleOrphan] [] rfl
     (List.mem_cons_self _ _)⟩

/-- A stable sort by a total, transitive should-precede relation is sorted
with respect to it. -/
theorem stableSortLe_pairwise {α : Type} (le : α → α → Bool)
    (htot : ∀ a b, le a b = true ∨ le b a = true)
    (htrans : ∀ a b c, le a b = true → le b c = true → le a c = true)
    (l : List α) :
    (stableSortLe le l).Pairwise (fun a b => le a b = true) := by
  haveI : IsTotal α (fun a b => le a b = true) := ⟨htot⟩
  haveI : IsTrans α (fun a b => le a b = true) := ⟨htrans⟩
  exact List.sorted_insertionSort _ l

/-- The stable-placement insertion keeps the subsequence of any fixed key
intact: the inserted element lands before every element of its own key
group, and other groups are untouched. -/
theorem filter_orderedInsert_key {α β : Type} [DecidableEq β] (k : α → β)
    (le : α → α → Bool) (hrefl : ∀ a b, k a = k b → le a b = true)
    (x : α) (v : β) :
    ∀ l : List α,
      (l.orderedInsert (fun a b => le a b = true) x).filter (fun y => k y == v)
        = if k x = v then x :: l.filter (fun y => k y == v)
          else l.filter (fun y => k y == v)
  | [] => by
      by_cases h : k x = v <;> simp [List.orderedInsert, List.filter_cons, h]
  | b :: l => by
      rw [List.orderedInsert]
      by_cases hle : le x b = true
      · rw [if_pos hle]
        by_cases h : k x = v <;> by_cases hb : k b = v <;>
          simp [List.filter_cons, h, hb]
      · rw [if_neg hle]
        have hkxb : k x ≠ k b := fun hEq => hle (hrefl x b hEq)
        by_cases hb : k b = v
        · have hx : ¬ k x = v := fun hx => hkxb (hx.trans hb.symm)
          simp [List.filter_cons, hb, hx,
            filter_orderedInsert_key k le hrefl x v l]
        · by_cases hx : k x = v <;>
            simp [List.filter_cons, hb, hx,
              filter_orderedInsert_key k le hrefl x v l]

/-- Stability of the sort, as preservation of every key group: filtering
the sorted list by any key value yields the same subsequence as filtering
the input. -/
theorem filter_stableSortLe_key {α β : Type} [DecidableEq β] (k : α → β)
    (le : α → α → Bool) (hrefl : ∀ a b, k a = k b → le a b = true) (v : β) :
    ∀ l : List α,
      (stableSortLe le l).filter (fun y => k y == v)
        = l.filter (fun y => k y == v)
  | [] => rfl
  | x :: l => by
      show ((List.insertionSort _ l).orderedInsert _ x).filter _ = _
      rw [filter_orderedInsert_key k le hrefl x v]
      rw [show List.insertionSort (fun a b => le a b = true) l
            = stableSortLe le l from rfl]
      rw [filter_stableSortLe_key k le hrefl v l]
      by_cases h : k x = v <;> simp [List.filter_cons, h]

/-- C6: when the requested ordering is `feed_type`, the JSON result is the
stable ascending sort of the rendered items by resolved label — sorted
(pairwise non-decreasing labels) and stable (each label group keeps its
original subsequence) — and `-feed_type` is the stable descending sort,
regardless of the order the records came in; any other ordering leaves the
rendered list unchanged. -/
theorem json_feed_type_post_sort (skip verbose : Bool) (valid : FeedItem → Bool)
    (p : FeedRequestParams) (iocs : List IOC) (jl : List FeedItem)
    (hr : render_all skip verbose valid p.feed_type iocs = Except.ok jl) :
    (p.ordering = "feed_type" →
      feeds_response_json skip verbose valid p iocs
          = Except.ok (stableSortLe (feed_type_le false) jl)
        ∧ (stableSortLe (feed_type_le false) jl).Pairwise
            (fun a b => a.feed_type ≤ b.feed_type)
        ∧ ∀ s, (stableSortLe (feed_type_le false) jl).filter
              (fun x => x.feed_type == s)
            = jl.filter (fun x => x.feed_type == s))
    ∧ (p.ordering = "-feed_type" →
      feeds_response_json skip verbose valid p iocs
          = Except.ok (stableSortLe (feed_type_le true) jl)
        ∧ (stableSortLe (feed_type_le true) jl).Pairwise
            (fun a b => b.feed_type ≤ a.feed_type)
        ∧ ∀ s, (stableSortLe (feed_type_le true) jl).filter
              (fun x => x.feed_type == s)
            = jl.filter (fun x => x.feed_type == s))
    ∧ (p.ordering ≠ "feed_type" → p.ordering ≠ "-feed_type" →
        feeds_response_json skip verbose valid p iocs = Except.ok jl) := by
  refine ⟨?_, ?_, ?_⟩
  · intro ho
    refine ⟨?_, ?_, ?_⟩
    · rw [feeds_response_json_eq, hr]
      simp [post_sort, ho]
    · exact (stableSortLe_pairwise (feed_type_le false)
        (fun a b => by
          rcases le_total a.feed_type b.feed_type with h | h
          · exact Or.inl (decide_eq_true h)
          · exact Or.inr (decide_eq_true h))
        (fun a b c hab hbc => decide_eq_true
          (le_trans (of_decide_eq_true hab) (of_decide_eq_true hbc)))
        jl).imp (fun h => of_decide_eq_true h)
    · intro s
      exact filter_stableSortLe_key (fun x => x.feed_type) (feed_type_le false)
        (fun a b h => decide_eq_true (le_of_eq h)) s jl
  · intro ho
    refine ⟨?_, ?_, ?_⟩
    · rw [feeds_response_json_eq, hr]
      simp [post_sort, ho]
    · exact (stableSortLe_pairwise (feed_type_le true)
        (fun a b => by
          rcases le_total b.feed_type a.feed_type with h | h
          · exact Or.inl (decide_eq_true h)
          · exact Or.inr (decide_eq_true h))
        (fun a b c hab hbc => decide_eq_true
          (le_trans (of_decide_eq_true hbc) (of_decide_eq_true hab)))
        jl).imp (fun h => of_decide_eq_true h)
    · intro s
      exact filter_stableSortLe_key (fun x => x.feed_type) (feed_type_le true)
        (fun a b h => decide_eq_true (le_of_eq h.symm)) s jl
  · intro h1 h2
    rw [feeds_response_json_eq, hr]
    simp [post_sort, h1, h2]

/-- Witness for the C6 theorem at a concrete two-record store whose labels
arrive out of alphabetical order. -/
theorem json_feed_type_post_sort_witness :
    feeds_response_json false false acceptAll feedTypeAscParams
        [sampleCowrie, sampleLog4j]
      = Except.ok (stableSortLe (feed_type_le false)
          [render_item sampleCowrie "cowrie" false,
           render_item sampleLog4j "log4j" false]) :=
  ((json_feed_type_post_sort false false acceptAll feedTypeAscParams
      [sampleCowrie, sampleLog4j]
      [render_item sampleCowrie "cowrie" false,
       render_item sampleLog4j "log4j" false] rfl).1 rfl).1

end GreedyBear
